import Mathlib

/-!
Shallow embedding of the core of the mio I/O notification library
(epoll selector, event decoding, IOCP TCP stream state machine, and the
non-blocking I/O helpers), together with theorems checking the
natural-language specification against it.

Machine integers are modelled as `Nat` with explicit truncation (`% 2 ^ w`)
where the source performs a narrowing cast.  Fallible code returns `Except`.
OS behaviour that the code relies on (the epoll registration table kept by
the kernel, the result of a syscall) is modelled explicitly as state or as
an oracle argument.
-/

set_option maxRecDepth 8000

namespace Mio

/-! ### Native epoll bit constants (Linux values, as re-exported by nix) -/

def EPOLLIN : Nat := 0x001
def EPOLLOUT : Nat := 0x004
def EPOLLERR : Nat := 0x008
def EPOLLHUP : Nat := 0x010
def EPOLLRDHUP : Nat := 0x2000
def EPOLLONESHOT : Nat := 0x40000000
def EPOLLET : Nat := 0x80000000

/-! ### Bitflags operations

The nix `EpollEventKind` and mio's `Interest` / `PollOpt` are `bitflags!`
types: `contains` is `(self & other) == other`, `insert` is bitwise or,
`remove` is `self &= !other` at the type's width (`u32` for the epoll kind).
-/

/-- `bitflags` `contains`: `(self & other) == other`. -/
def bitsContain (s m : Nat) : Bool := s &&& m == m

/-- Bitwise complement at width 32 (`!other` on a `u32` flags value). -/
def compl32 (m : Nat) : Nat := (2 ^ 32 - 1) ^^^ m

/-! ### `Interest` and `PollOpt` (src/src/event.rs) -/

structure Interest where
  bits : Nat
deriving DecidableEq, Repr

def Interest.none : Interest := ⟨0⟩
def Interest.readable : Interest := ⟨0x001⟩
def Interest.writable : Interest := ⟨0x002⟩
def Interest.error : Interest := ⟨0x004⟩
def Interest.hup : Interest := ⟨0x008⟩
def Interest.hinted : Interest := ⟨0x010⟩

def Interest.or (a b : Interest) : Interest := ⟨a.bits ||| b.bits⟩

def Interest.contains (a b : Interest) : Bool := bitsContain a.bits b.bits

def Interest.is_readable (a : Interest) : Bool := a.contains Interest.readable
def Interest.is_writable (a : Interest) : Bool := a.contains Interest.writable
def Interest.is_error (a : Interest) : Bool := a.contains Interest.error
def Interest.is_hup (a : Interest) : Bool := a.contains Interest.hup
def Interest.is_hinted (a : Interest) : Bool := a.contains Interest.hinted

structure PollOpt where
  bits : Nat
deriving DecidableEq, Repr

def PollOpt.empty : PollOpt := ⟨0⟩
def PollOpt.edge : PollOpt := ⟨0x020⟩
def PollOpt.level : PollOpt := ⟨0x040⟩
def PollOpt.oneshot : PollOpt := ⟨0x080⟩

def PollOpt.or (a b : PollOpt) : PollOpt := ⟨a.bits ||| b.bits⟩

def PollOpt.contains (a b : PollOpt) : Bool := bitsContain a.bits b.bits

def PollOpt.is_edge (a : PollOpt) : Bool := a.contains PollOpt.edge
def PollOpt.is_level (a : PollOpt) : Bool := a.contains PollOpt.level
def PollOpt.is_oneshot (a : PollOpt) : Bool := a.contains PollOpt.oneshot

/-! ### `ioevent_to_epoll` (src/src/os/epoll.rs lines 69–97) -/

/-- Translation of interests and options into the native epoll mask.
Mirrors `fn ioevent_to_epoll`: conditional inserts of `EPOLLIN`,
`EPOLLOUT`, `EPOLLRDHUP`, `EPOLLET`, `EPOLLONESHOT`, then removal of
`EPOLLET` when the level flag is set. -/
def ioevent_to_epoll (interest : Interest) (opts : PollOpt) : Nat :=
  let kind := 0
  let kind := if interest.is_readable then kind ||| EPOLLIN else kind
  let kind := if interest.is_writable then kind ||| EPOLLOUT else kind
  let kind := if interest.is_hup then kind ||| EPOLLRDHUP else kind
  let kind := if opts.is_edge then kind ||| EPOLLET else kind
  let kind := if opts.is_oneshot then kind ||| EPOLLONESHOT else kind
  let kind := if opts.is_level then kind &&& compl32 EPOLLET else kind
  kind

/-! ### `IoEvent` (src/src/event.rs) and the poll.rs readiness queries -/

structure Token where
  val : Nat
deriving DecidableEq, Repr

structure IoEvent where
  kind : Interest
  token : Token
deriving DecidableEq, Repr

/-- `IoEvent::new(kind, token)` (src/src/event.rs lines 305–310). -/
def IoEvent.new (kind : Interest) (token : Nat) : IoEvent :=
  { kind := kind, token := ⟨token⟩ }

/-- The `IoEventKind` flags of src/src/poll.rs lines 40–49.  Their numeric
values coincide with the `Interest` flags of src/src/event.rs, so the
poll.rs readiness queries are stated directly on the `kind` word of a
delivered event. -/
def IoReadable : Nat := 0x001
def IoWritable : Nat := 0x002
def IoError : Nat := 0x004
def IoHupHint : Nat := 0x008
def IoHinted : Nat := 0x010

/-- `IoEvent::is_readable` (src/src/poll.rs lines 104–106):
`self.kind.contains(IoReadable) || self.kind.contains(IoHupHint)`. -/
def IoEvent.is_readable (e : IoEvent) : Bool :=
  bitsContain e.kind.bits IoReadable || bitsContain e.kind.bits IoHupHint

/-- `IoEvent::is_writable` (src/src/poll.rs lines 109–111). -/
def IoEvent.is_writable (e : IoEvent) : Bool :=
  bitsContain e.kind.bits IoWritable

/-- `IoEvent::is_error` (src/src/poll.rs lines 114–116). -/
def IoEvent.is_error (e : IoEvent) : Bool :=
  bitsContain e.kind.bits IoError

/-! ### `Events` (src/src/os/epoll.rs lines 105–153) -/

/-- A native `EpollEvent`: the 32-bit event mask and the 64-bit user data
word.  The data word is kept `% 2 ^ 64`. -/
structure EpollEvent where
  events : Nat
  data : Nat
deriving DecidableEq, Repr

/-- The `Events` container: a fixed array of 1024 `EpollEvent` slots and a
length set by the last `select`. -/
structure Events where
  len : Nat
  events : List EpollEvent
deriving DecidableEq, Repr

/-- `Events::new` (src/src/os/epoll.rs lines 111–116): length zero and a
1024-slot backing array (the source leaves the slots uninitialized; the
model fills them with zeros, which `Events::get` never reads because the
index is checked against `len`). -/
def Events.new : Events :=
  { len := 0, events := List.replicate 1024 ⟨0, 0⟩ }

/-- `Events::len` (src/src/os/epoll.rs lines 119–121). -/
def Events.length (e : Events) : Nat := e.len

/-- `Events::get` (src/src/os/epoll.rs lines 124–152).  The source panics
on `idx >= self.len`; the model returns `none` there.  The decoded kind
starts from `Interest::hinted()` and ORs in readable / writable / error /
hup according to the native bits; the token is the data word cast
`as usize` (64-bit platform: `% 2 ^ 64`). -/
def Events.get (e : Events) (idx : Nat) : Option IoEvent :=
  if idx ≥ e.len then Option.none
  else
    match e.events.get? idx with
    | Option.none => Option.none
    | Option.some ev =>
      let epoll := ev.events
      let kind := Interest.hinted
      let kind := if bitsContain epoll EPOLLIN then kind.or Interest.readable else kind
      let kind := if bitsContain epoll EPOLLOUT then kind.or Interest.writable else kind
      let kind := if bitsContain epoll EPOLLERR then kind.or Interest.error else kind
      let kind := if bitsContain epoll EPOLLRDHUP || bitsContain epoll EPOLLHUP
                  then kind.or Interest.hup else kind
      let token := ev.data
      Option.some (IoEvent.new kind (token % 2 ^ 64))

/-! ### Selector (src/src/os/epoll.rs lines 8–67) and the kernel model -/

/-- Error codes used by the embedding. -/
def EINTR : Nat := 4
def ENOENT : Nat := 2
def EEXIST : Nat := 17
def EINPROGRESS : Nat := 115

/-- The nix error type: `NixError::Sys(errno)` or `NixError::InvalidPath`. -/
inductive NixError where
  | sys (errno : Nat)
  | invalidPath
deriving DecidableEq, Repr

/-- `epoll_ctl` operations. -/
inductive EpollOp where
  | ctlAdd
  | ctlMod
  | ctlDel
deriving DecidableEq, Repr

/-- The kernel side of an epoll instance: the registration table mapping a
file descriptor to the mask and data word stored by the last successful
`EPOLL_CTL_ADD`/`EPOLL_CTL_MOD`.  This models the Linux kernel state the
selector manipulates through `epoll_ctl`; it is not code of the repository
but the environment it runs against (epoll(7)). -/
structure SelectorState where
  table : Nat → Option EpollEvent

/-- Kernel model of `epoll_ctl` (epoll(7)): ADD fails with `EEXIST` on a
registered fd, MOD and DEL fail with `ENOENT` on an unregistered one;
otherwise the table is updated. -/
def epoll_ctl (s : SelectorState) (op : EpollOp) (fd : Nat) (ev : EpollEvent) :
    Except NixError SelectorState :=
  match op with
  | EpollOp.ctlAdd =>
    if (s.table fd).isSome then Except.error (NixError.sys EEXIST)
    else Except.ok ⟨fun x => if x = fd then Option.some ev else s.table x⟩
  | EpollOp.ctlMod =>
    if (s.table fd).isSome then
      Except.ok ⟨fun x => if x = fd then Option.some ev else s.table x⟩
    else Except.error (NixError.sys ENOENT)
  | EpollOp.ctlDel =>
    if (s.table fd).isSome then
      Except.ok ⟨fun x => if x = fd then Option.none else s.table x⟩
    else Except.error (NixError.sys ENOENT)

/-- `Selector::register` (src/src/os/epoll.rs lines 33–41): builds an
`EpollEvent` with the mask from `ioevent_to_epoll` and `data = token as u64`
and issues `EPOLL_CTL_ADD`. -/
def Selector.register (s : SelectorState) (fd token : Nat)
    (interests : Interest) (opts : PollOpt) : Except NixError SelectorState :=
  epoll_ctl s EpollOp.ctlAdd fd ⟨ioevent_to_epoll interests opts, token % 2 ^ 64⟩

/-- `Selector::reregister` (src/src/os/epoll.rs lines 44–52): same event
payload, issued as `EPOLL_CTL_MOD`. -/
def Selector.reregister (s : SelectorState) (fd token : Nat)
    (interests : Interest) (opts : PollOpt) : Except NixError SelectorState :=
  epoll_ctl s EpollOp.ctlMod fd ⟨ioevent_to_epoll interests opts, token % 2 ^ 64⟩

/-- `Selector::deregister` (src/src/os/epoll.rs lines 55–66): a dummy
event payload, issued as `EPOLL_CTL_DEL`. -/
def Selector.deregister (s : SelectorState) (fd : Nat) :
    Except NixError SelectorState :=
  epoll_ctl s EpollOp.ctlDel fd ⟨0, 0⟩

/-- Kernel model of event delivery (epoll(7)): an event `epoll_wait`
reports for `fd` carries the data word stored by the last
`EPOLL_CTL_ADD`/`EPOLL_CTL_MOD` for that fd, and an event mask limited to
the pending condition intersected with the registered mask plus the
always-reported `EPOLLERR` and `EPOLLHUP`. -/
def kernelDeliver (s : SelectorState) (fd : Nat) (pending : Nat) :
    Option EpollEvent :=
  match s.table fd with
  | Option.none => Option.none
  | Option.some reg =>
    let reported := pending &&& (reg.events ||| EPOLLERR ||| EPOLLHUP)
    if reported = 0 then Option.none else Option.some ⟨reported, reg.data⟩

/-- `Selector::select` (src/src/os/epoll.rs lines 20–30).  The result of
the `epoll_wait` syscall is an oracle argument: on success the kernel has
written `delivered` into the prefix of the event slice and returned its
count; on `Err(Sys(EINTR))` the count is taken as 0; any other error is
returned.  Finally `evts.len` is set to the count. -/
def Selector.select (evts : Events)
    (waitResult : Except NixError (List EpollEvent)) : Except NixError Events :=
  match waitResult with
  | Except.ok delivered =>
    Except.ok { len := delivered.length,
                events := delivered ++ evts.events.drop delivered.length }
  | Except.error (NixError.sys e) =>
    if e = EINTR then Except.ok { evts with len := 0 }
    else Except.error (NixError.sys e)
  | Except.error NixError.invalidPath => Except.error NixError.invalidPath

/-! ### Non-blocking I/O helpers (src/src/io.rs) -/

/-- `NonBlock<T>` (src/src/io.rs lines 11–14). -/
inductive NonBlock (T : Type) where
  | Ready (v : T)
  | WouldBlock
deriving DecidableEq, Repr

/-- The `MioErrorKind` cases the helpers distinguish. -/
inductive MioErrorKind where
  | wouldBlock
  | other (code : Nat)
deriving DecidableEq, Repr

/-- A mio error, carrying only its kind (all the helpers inspect). -/
structure MioError where
  kind : MioErrorKind
deriving DecidableEq, Repr

/-- The cursor of a buffer.  The buffer abstraction itself is an external
collaborator (out of the spec's scope); only its cursor position is
modelled, and `advance(cnt)` moves it forward by `cnt`. -/
structure MioBuf where
  pos : Nat
deriving DecidableEq, Repr

/-- `Buf::advance` / `MutBuf::advance` of the external buffer crate:
advances the cursor by `cnt` bytes. -/
def MioBuf.advance (b : MioBuf) (cnt : Nat) : MioBuf :=
  { b with pos := b.pos + cnt }

/-- `read_slice` (src/src/io.rs lines 126–138).  The result of the
`os::read` syscall is an oracle argument: `Ok cnt` becomes `Ready cnt`, a
would-block error becomes `Ok WouldBlock`, any other error propagates. -/
def read_slice (osResult : Except MioError Nat) :
    Except MioError (NonBlock Nat) :=
  match osResult with
  | Except.ok cnt => Except.ok (NonBlock.Ready cnt)
  | Except.error e =>
    match e.kind with
    | MioErrorKind.wouldBlock => Except.ok NonBlock.WouldBlock
    | _ => Except.error e

/-- `write_slice` (src/src/io.rs lines 142–152): same shape over
`os::write`. -/
def write_slice (osResult : Except MioError Nat) :
    Except MioError (NonBlock Nat) :=
  match osResult with
  | Except.ok cnt => Except.ok (NonBlock.Ready cnt)
  | Except.error e =>
    match e.kind with
    | MioErrorKind.wouldBlock => Except.ok NonBlock.WouldBlock
    | _ => Except.error e

/-- `io::read` (src/src/io.rs lines 100–110): run `read_slice`, and only
on `Ok(Ready(cnt))` advance the buffer cursor by `cnt`. -/
def ioread (buf : MioBuf) (osResult : Except MioError Nat) :
    Except MioError (NonBlock Nat) × MioBuf :=
  let res := read_slice osResult
  match res with
  | Except.ok (NonBlock.Ready cnt) => (res, buf.advance cnt)
  | _ => (res, buf)

/-- `io::write` (src/src/io.rs lines 114–122): run `write_slice`, and only
on `Ok(Ready(cnt))` advance the buffer cursor by `cnt`. -/
def iowrite (buf : MioBuf) (osResult : Except MioError Nat) :
    Except MioError (NonBlock Nat) × MioBuf :=
  let res := write_slice osResult
  match res with
  | Except.ok (NonBlock.Ready cnt) => (res, buf.advance cnt)
  | _ => (res, buf)

/-! ### Unix non-blocking connect (src/src/sys/unix/net.rs, socket.rs) -/

/-- `sys::unix::net::connect` (src/src/sys/unix/net.rs lines 18–28).  The
result of the `nix::connect` syscall is an oracle: success yields
`Ok(true)`, `Err(Sys(EINPROGRESS))` yields `Ok(false)`, anything else is
an error. -/
def unixConnect (nixResult : Except NixError Unit) : Except NixError Bool :=
  match nixResult with
  | Except.ok _ => Except.ok true
  | Except.error e =>
    match e with
    | NixError.sys errno =>
      if errno = EINPROGRESS then Except.ok false
      else Except.error (NixError.sys errno)
    | _ => Except.error e

/-- `Socket::connect` (src/src/sys/unix/socket.rs lines 71–87).  The raw
`connect(2)` result is an oracle (`Ok res` or an errno): `EINPROGRESS` is
turned into `Ok 0` ("connect hasn't finished, but that is fine"), any
other errno closes the socket and propagates.  The returned flag records
whether the socket was closed. -/
def Socket.connect (rawResult : Except Nat Int) : Except Nat Int × Bool :=
  match rawResult with
  | Except.ok res => (Except.ok res, false)
  | Except.error errno =>
    if errno = EINPROGRESS then (Except.ok 0, false)
    else (Except.error errno, true)

/-! ### IOCP TCP stream (src/src/sys/windows/tcp.rs) -/

/-- Modelled from the spec: the `EventSet` readiness type used by the
Windows backend is declared outside src/ (only its uses appear in
src/src/sys/windows/tcp.rs); per the spec it is "a set over {readable,
writable, error, hup}", modelled as a bitflags word with one bit per
member. -/
def EventSet.readable : Nat := 0x01

/-- Modelled from the spec: the writable bit of `EventSet`. -/
def EventSet.writable : Nat := 0x02

/-- Modelled from the spec: the error bit of `EventSet`. -/
def EventSet.error : Nat := 0x04

/-- Modelled from the spec: the hup bit of `EventSet`. -/
def EventSet.hup : Nat := 0x08

/-- Modelled from the spec: the full `EventSet` universe, used to interpret
bitwise negation on the flags word. -/
def EventSet.all : Nat :=
  EventSet.readable ||| EventSet.writable ||| EventSet.error ||| EventSet.hup

/-- Windows error code `WSAECONNRESET`. -/
def WSAECONNRESET : Nat := 10054

/-- An `io::Error` as the Windows backend inspects it: the sentinel
produced by the `wouldblock()` helper, or an OS error with its raw code. -/
inductive WinErr where
  | wouldBlock
  | osErr (code : Nat)
deriving DecidableEq, Repr

/-- `io::Error::raw_os_error`. -/
def WinErr.rawOsError (e : WinErr) : Option Nat :=
  match e with
  | WinErr.wouldBlock => Option.none
  | WinErr.osErr code => Option.some code

/-- `State<T, U>` (src/src/sys/windows/tcp.rs lines 80–85). -/
inductive RState (T U : Type) where
  | Empty
  | Pending (t : T)
  | Ready (u : U)
  | Error (e : WinErr)
deriving DecidableEq, Repr

/-- `Cursor<Vec<u8>>`: the bytes of a completed overlapped read and the
read position within them. -/
structure RCursor where
  data : List Nat
  pos : Nat
deriving DecidableEq, Repr

/-- `StreamInner` (src/src/sys/windows/tcp.rs lines 67–72).  The
`iocp: Registration` field is represented by the readiness word it
maintains through `set_readiness`/`readiness`; `deferred_connect` and the
`write` state are carried for completeness. -/
structure StreamInner where
  readiness : Nat
  deferredConnect : Bool
  read : RState (List Nat) RCursor
  write : RState (List Nat × Nat) (List Nat × Nat)
deriving DecidableEq, Repr

/-- `StreamImp::add_readiness` (src/src/sys/windows/tcp.rs lines 324–326):
`set_readiness(set | readiness)`. -/
def add_readiness (me : StreamInner) (set : Nat) : StreamInner :=
  { me with readiness := set ||| me.readiness }

/-- `StreamImp::schedule_read` (src/src/sys/windows/tcp.rs lines 242–281).
The outcome of the `read_overlapped` call is an oracle, as is the fresh
64KiB buffer handed out by `get_buffer` (its `set_len(cap)` leaves the
contents arbitrary).  On `Empty` the cached readable readiness is cleared
and an overlapped read is issued: success parks the buffer as `Pending`;
failure stores the error and adds readable (plus hup on `WSAECONNRESET`)
readiness.  On `Ready`/`Error` only readable readiness is re-added; on
`Pending` nothing happens. -/
def schedule_read (me : StreamInner) (osRead : Except WinErr Unit)
    (freshBuf : List Nat) : StreamInner :=
  match me.read with
  | RState.Empty =>
    let me := { me with readiness := me.readiness &&& (EventSet.all ^^^ EventSet.readable) }
    match osRead with
    | Except.ok _ => { me with read := RState.Pending freshBuf }
    | Except.error e =>
      let set := if e.rawOsError = Option.some WSAECONNRESET
                 then EventSet.readable ||| EventSet.hup
                 else EventSet.readable
      add_readiness { me with read := RState.Error e } set
  | RState.Ready _ => add_readiness me EventSet.readable
  | RState.Error _ => add_readiness me EventSet.readable
  | RState.Pending _ => me

/-- `TcpStream::read` (src/src/sys/windows/tcp.rs lines 166–192).  The
caller's buffer is represented by its length `outLen`; `cursor.read`
copies `min outLen remaining` bytes and advances the cursor.  The
`osRead`/`freshBuf` oracles feed `schedule_read` where it is invoked. -/
def TcpStream.read (me : StreamInner) (outLen : Nat)
    (osRead : Except WinErr Unit) (freshBuf : List Nat) :
    Except WinErr Nat × StreamInner :=
  match me.read with
  | RState.Empty => (Except.error WinErr.wouldBlock, { me with read := RState.Empty })
  | RState.Pending buf =>
    (Except.error WinErr.wouldBlock, { me with read := RState.Pending buf })
  | RState.Ready cursor =>
    let amt := min outLen (cursor.data.length - cursor.pos)
    let cursor := { cursor with pos := cursor.pos + amt }
    if cursor.pos = cursor.data.length then
      (Except.ok amt, schedule_read { me with read := RState.Empty } osRead freshBuf)
    else
      (Except.ok amt, { me with read := RState.Ready cursor })
  | RState.Error e =>
    (Except.error e, schedule_read { me with read := RState.Empty } osRead freshBuf)

/-- `read_done` (src/src/sys/windows/tcp.rs lines 329–372).  If a read was
pending, the buffer is truncated to the transferred byte count and cached
as `Ready`, and readable readiness — plus hup when zero bytes were
transferred — is added.  Otherwise a connect just finished: its completion
result is the `connectResult` oracle; success adds writable readiness and
schedules a read, failure adds readable readiness and stores the error. -/
def read_done (me : StreamInner) (bytesTransferred : Nat)
    (connectResult : Except WinErr Unit) (osRead : Except WinErr Unit)
    (freshBuf : List Nat) : StreamInner :=
  match me.read with
  | RState.Pending buf =>
    let me := { me with read := RState.Ready ⟨buf.take bytesTransferred, 0⟩ }
    let e := EventSet.readable
    let e := if bytesTransferred = 0 then e ||| EventSet.hup else e
    add_readiness me e
  | s =>
    match connectResult with
    | Except.ok _ =>
      schedule_read (add_readiness { me with read := s } EventSet.writable)
        osRead freshBuf
    | Except.error e =>
      { (add_readiness { me with read := s } EventSet.readable) with
        read := RState.Error e }

/-! ### Helper lemmas -/

/-- `contains` with a single-bit mask tests that bit. -/
lemma bitsContain_two_pow (s k : Nat) :
    bitsContain s (2 ^ k) = s.testBit k := by
  unfold bitsContain
  rw [Nat.and_two_pow]
  cases h : s.testBit k
  · simp [h, (Nat.two_pow_pos k).ne]
  · simp

lemma EPOLLERR_pow : EPOLLERR = 2 ^ 3 := by decide

lemma EPOLLHUP_pow : EPOLLHUP = 2 ^ 4 := by decide

/-- Intersecting a pending condition with the registered mask plus the
always-reported error bit keeps the error bit exactly when it is pending. -/
lemma reported_err (pending mask : Nat) :
    bitsContain (pending &&& (mask ||| EPOLLERR ||| EPOLLHUP)) EPOLLERR =
      bitsContain pending EPOLLERR := by
  rw [EPOLLERR_pow, EPOLLHUP_pow, bitsContain_two_pow, bitsContain_two_pow]
  have h1 : Nat.testBit 8 3 = true := by decide
  have h2 : Nat.testBit 16 3 = false := by decide
  simp [Nat.testBit_land, Nat.testBit_lor, h1, h2]

/-- Same for the always-reported hangup bit. -/
lemma reported_hup (pending mask : Nat) :
    bitsContain (pending &&& (mask ||| EPOLLERR ||| EPOLLHUP)) EPOLLHUP =
      bitsContain pending EPOLLHUP := by
  rw [EPOLLERR_pow, EPOLLHUP_pow, bitsContain_two_pow, bitsContain_two_pow]
  have h1 : Nat.testBit 8 4 = false := by decide
  have h2 : Nat.testBit 16 4 = true := by decide
  simp [Nat.testBit_land, Nat.testBit_lor, h1, h2]

/-- Evaluation of `Events::get` on a one-event container. -/
lemma events_get_single (bits d : Nat) :
    Events.get { len := 1, events := [⟨bits, d⟩] } 0 =
      Option.some (IoEvent.new
        ⟨IoHinted
          ||| (if bitsContain bits EPOLLIN then IoReadable else 0)
          ||| (if bitsContain bits EPOLLOUT then IoWritable else 0)
          ||| (if bitsContain bits EPOLLERR then IoError else 0)
          ||| (if bitsContain bits EPOLLRDHUP || bitsContain bits EPOLLHUP
               then IoHupHint else 0)⟩
        (d % 2 ^ 64)) := by
  cases h1 : bitsContain bits EPOLLIN <;>
  cases h2 : bitsContain bits EPOLLOUT <;>
  cases h3 : bitsContain bits EPOLLERR <;>
  cases h4 : bitsContain bits EPOLLRDHUP <;>
  cases h5 : bitsContain bits EPOLLHUP <;>
    simp [Events.get, Interest.or, Interest.hinted, Interest.readable,
      Interest.writable, Interest.error, Interest.hup, IoEvent.new,
      h1, h2, h3, h4, h5, IoHinted, IoReadable, IoWritable, IoError, IoHupHint]

/-- `Events::get` returns the stored data word (cast `as usize`) as the
token, whatever the event mask decodes to. -/
lemma events_get_token (evts : Events) (idx : Nat) (entry : EpollEvent)
    (hlt : idx < evts.len) (hget : evts.events.get? idx = Option.some entry) :
    ∃ io, Events.get evts idx = Option.some io ∧
      io.token = ⟨entry.data % 2 ^ 64⟩ := by
  unfold Events.get
  rw [if_neg (by omega), hget]
  exact ⟨_, rfl, rfl⟩

/-! ### Claim theorems -/

/-- C7 counterexample: registering with readable interest alone produces a
native mask without the `EPOLLRDHUP` hangup subscription, refuting the
claim that the mask always contains it regardless of the interests
requested. -/
theorem c7_counterexample :
    Interest.readable.is_readable = true ∧
    bitsContain (ioevent_to_epoll Interest.readable PollOpt.edge) EPOLLRDHUP
      = false := by
  decide

/-- C7 (amended): for every interests-and-opts pair, the native mask from
`ioevent_to_epoll` contains the readable bit iff readable interest is set,
the writable bit iff writable interest is set, and the hangup subscription
`EPOLLRDHUP` iff (not: always) the hup interest is set. -/
theorem c7_epoll_mask_from_interests (interest : Interest) (opts : PollOpt) :
    bitsContain (ioevent_to_epoll interest opts) EPOLLIN
      = interest.is_readable ∧
    bitsContain (ioevent_to_epoll interest opts) EPOLLOUT
      = interest.is_writable ∧
    bitsContain (ioevent_to_epoll interest opts) EPOLLRDHUP
      = interest.is_hup := by
  cases hr : interest.is_readable <;> cases hw : interest.is_writable <;>
  cases hh : interest.is_hup <;> cases he : opts.is_edge <;>
  cases ho : opts.is_oneshot <;> cases hl : opts.is_level <;>
    refine ⟨?_, ?_, ?_⟩ <;>
    simp [ioevent_to_epoll, hr, hw, hh, he, ho, hl] <;> decide

/-- C9: when a `PollOpt` contains both the edge and the level flag, the
computed epoll mask does not contain `EPOLLET`: the level flag overrides
the edge flag. -/
theorem c9_level_overrides_edge (interest : Interest) (opts : PollOpt)
    (he : opts.is_edge = true) (hl : opts.is_level = true) :
    bitsContain (ioevent_to_epoll interest opts) EPOLLET = false := by
  cases hr : interest.is_readable <;> cases hw : interest.is_writable <;>
  cases hh : interest.is_hup <;> cases ho : opts.is_oneshot <;>
    simp [ioevent_to_epoll, hr, hw, hh, he, ho, hl] <;> decide

/-- C9 witness: edge|level at a concrete input. -/
theorem c9_witness :
    (PollOpt.edge.or PollOpt.level).is_edge = true ∧
    (PollOpt.edge.or PollOpt.level).is_level = true ∧
    bitsContain (ioevent_to_epoll Interest.readable (PollOpt.edge.or PollOpt.level))
      EPOLLET = false :=
  ⟨by decide, by decide,
    c9_level_overrides_edge Interest.readable (PollOpt.edge.or PollOpt.level)
      (by decide) (by decide)⟩

/-- C2: `Selector::select` turns an `EINTR` failure of `epoll_wait` into
`Ok` with the event count set to zero; any other syscall failure is
returned as an error. -/
theorem c2_eintr_is_zero_events (evts : Events) (errno : Nat) :
    Selector.select evts (Except.error (NixError.sys EINTR)) =
      Except.ok { evts with len := 0 } ∧
    (errno ≠ EINTR →
      Selector.select evts (Except.error (NixError.sys errno)) =
        Except.error (NixError.sys errno)) ∧
    Selector.select evts (Except.error NixError.invalidPath) =
      Except.error NixError.invalidPath := by
  refine ⟨by simp [Selector.select], fun h => ?_, by simp [Selector.select]⟩
  simp [Selector.select, h]

/-- C2 witness: concrete `EINTR` and non-`EINTR` failures. -/
theorem c2_witness :
    Selector.select Events.new (Except.error (NixError.sys EINTR)) =
      Except.ok { Events.new with len := 0 } ∧
    Selector.select Events.new (Except.error (NixError.sys 9)) =
      Except.error (NixError.sys 9) :=
  ⟨(c2_eintr_is_zero_events Events.new 9).1,
    (c2_eintr_is_zero_events Events.new 9).2.1 (by decide)⟩

/-- C8 counterexample: the `Events` container is built by the
argument-less `Events::new`, whose capacity is the fixed 1024, not a
caller-chosen `n` (e.g. it can never be 5), refuting the
`Events::with_capacity(n)` claim. -/
theorem c8_counterexample :
    Events.new.events.length = 1024 ∧ Events.new.events.length ≠ 5 := by
  constructor
  · simp [Events.new]
  · simp [Events.new]

/-- C8 (amended): `Events` is constructed by the argument-less
`Events::new` with the fixed capacity 1024, and every `select` fills the
container with at most 1024 events, setting `len` to the actual count
delivered by the kernel. -/
theorem c8_fixed_capacity_events :
    Events.new.events.length = 1024 ∧ Events.new.len = 0 ∧
    ∀ (evts : Events) (delivered : List EpollEvent),
      evts.events.length = 1024 → delivered.length ≤ 1024 →
      ∃ evts', Selector.select evts (Except.ok delivered) = Except.ok evts' ∧
        evts'.len = delivered.length ∧ evts'.len ≤ 1024 ∧
        evts'.events.length = 1024 := by
  refine ⟨by simp [Events.new], rfl, fun evts delivered hcap hle => ?_⟩
  refine ⟨_, rfl, rfl, hle, ?_⟩
  simp [Selector.select, hcap]
  omega

/-- C8 witness: a concrete one-event delivery into a fresh container. -/
theorem c8_witness :
    ∃ evts', Selector.select Events.new (Except.ok [⟨1, 2⟩]) = Except.ok evts' ∧
      evts'.len = 1 ∧ evts'.len ≤ 1024 ∧ evts'.events.length = 1024 := by
  have h := c8_fixed_capacity_events.2.2 Events.new [⟨1, 2⟩]
    (by simp [Events.new]) (by simp)
  simpa using h

/-- C3: `Events::get` maps the native `EPOLLIN` bit into readable,
`EPOLLOUT` into writable, `EPOLLERR` into error, and
`EPOLLRDHUP`-or-`EPOLLHUP` into hup; a delivered event whose native bits
include hangup is reported readable by `IoEvent::is_readable` even without
`EPOLLIN`; and for any registered interests/opts, error and hup pending
conditions survive into the delivered event (the kernel reports
`EPOLLERR`/`EPOLLHUP` regardless of the mask and the decoder keeps them). -/
theorem c3_event_decoding :
    (∀ (bits d : Nat) (ev : IoEvent),
      Events.get { len := 1, events := [⟨bits, d⟩] } 0 = Option.some ev →
      ev.kind.contains Interest.readable = bitsContain bits EPOLLIN ∧
      ev.kind.contains Interest.writable = bitsContain bits EPOLLOUT ∧
      ev.kind.contains Interest.error = bitsContain bits EPOLLERR ∧
      ev.kind.contains Interest.hup =
        (bitsContain bits EPOLLRDHUP || bitsContain bits EPOLLHUP) ∧
      ((bitsContain bits EPOLLRDHUP || bitsContain bits EPOLLHUP) = true →
        ev.is_readable = true)) ∧
    (∀ (interests : Interest) (opts : PollOpt) (pending d : Nat) (ev : IoEvent),
      Events.get
          (Events.mk 1
            [EpollEvent.mk
              (pending &&& (ioevent_to_epoll interests opts ||| EPOLLERR ||| EPOLLHUP))
              d]) 0
        = Option.some ev →
      (bitsContain pending EPOLLERR = true →
        ev.kind.contains Interest.error = true) ∧
      (bitsContain pending EPOLLHUP = true →
        ev.kind.contains Interest.hup = true)) := by
  have main : ∀ (bits d : Nat) (ev : IoEvent),
      Events.get { len := 1, events := [⟨bits, d⟩] } 0 = Option.some ev →
      ev.kind.contains Interest.readable = bitsContain bits EPOLLIN ∧
      ev.kind.contains Interest.writable = bitsContain bits EPOLLOUT ∧
      ev.kind.contains Interest.error = bitsContain bits EPOLLERR ∧
      ev.kind.contains Interest.hup =
        (bitsContain bits EPOLLRDHUP || bitsContain bits EPOLLHUP) ∧
      ((bitsContain bits EPOLLRDHUP || bitsContain bits EPOLLHUP) = true →
        ev.is_readable = true) := by
    intro bits d ev h
    rw [events_get_single] at h
    injection h with h
    subst h
    cases h1 : bitsContain bits EPOLLIN <;>
    cases h2 : bitsContain bits EPOLLOUT <;>
    cases h3 : bitsContain bits EPOLLERR <;>
    cases h4 : bitsContain bits EPOLLRDHUP <;>
    cases h5 : bitsContain bits EPOLLHUP <;>
      (try simp only [h1, h2, h3, h4, h5, IoEvent.new, IoEvent.is_readable,
        Interest.contains]) <;> decide
  refine ⟨main, fun interests opts pending d ev h => ?_⟩
  have hev := main _ _ _ h
  constructor
  · intro herr
    rw [hev.2.2.1, reported_err]
    exact herr
  · intro hhup
    rw [hev.2.2.2.1]
    simp [reported_hup, hhup]

/-- C3 witness: a native event with only `EPOLLHUP` decodes to a kind
containing hup and is reported readable. -/
theorem c3_witness :
    (IoEvent.new ⟨24⟩ 0).kind.contains Interest.hup = true ∧
    (IoEvent.new ⟨24⟩ 0).is_readable = true := by
  have h := c3_event_decoding.1 EPOLLHUP 0 (IoEvent.new ⟨24⟩ 0) (by decide)
  exact ⟨(h.2.2.2.1).trans (by decide), h.2.2.2.2 (by decide)⟩

/-- The selector table with no registrations. -/
def emptySelector : SelectorState := ⟨fun _ => Option.none⟩

/-- C1: for every registration (or reregistration) made with token `t`,
every event the kernel delivers for that fd carries the data word stored
by the selector, and `Events::get` returns exactly `t` as the token; a
reregistration with a new token makes subsequent events carry the new
token (the hypothesis covers both `register` and `reregister`). -/
theorem c1_token_fidelity
    (s s' : SelectorState) (fd t pending idx : Nat)
    (interests : Interest) (opts : PollOpt) (ev : EpollEvent) (evts : Events)
    (htok : t < 2 ^ 64)
    (hreg : Selector.register s fd t interests opts = Except.ok s' ∨
            Selector.reregister s fd t interests opts = Except.ok s')
    (hdel : kernelDeliver s' fd pending = Option.some ev)
    (hidx : idx < evts.len)
    (hslot : evts.events.get? idx = Option.some ev) :
    ∃ io, Events.get evts idx = Option.some io ∧ io.token = ⟨t⟩ := by
  have htab : s'.table fd =
      Option.some ⟨ioevent_to_epoll interests opts, t % 2 ^ 64⟩ := by
    rcases hreg with h | h
    · unfold Selector.register epoll_ctl at h
      by_cases hs : (s.table fd).isSome
      · simp [hs] at h
      · simp [hs] at h
        rw [← h]
        simp
    · unfold Selector.reregister epoll_ctl at h
      by_cases hs : (s.table fd).isSome
      · simp [hs] at h
        rw [← h]
        simp
      · simp [hs] at h
  have hdata : ev.data = t % 2 ^ 64 := by
    unfold kernelDeliver at hdel
    rw [htab] at hdel
    by_cases hz : (pending &&&
        (ioevent_to_epoll interests opts ||| EPOLLERR ||| EPOLLHUP)) = 0
    · simp [hz] at hdel
    · simp [hz] at hdel
      rw [← hdel]
      norm_num
  obtain ⟨io, hio, htokio⟩ := events_get_token evts idx ev hidx hslot
  refine ⟨io, hio, ?_⟩
  rw [htokio, hdata]
  congr 1
  omega

/-- C1 witness: fd 3 registered with token 7 and readable-edge interest;
the kernel delivers a readable event for it and `Events::get` returns
token 7. -/
theorem c1_witness :
    ∃ io, Events.get { len := 1, events := [⟨1, 7⟩] } 0 = Option.some io ∧
      io.token = ⟨7⟩ :=
  c1_token_fidelity emptySelector
    ⟨fun x => if x = 3 then
        Option.some ⟨ioevent_to_epoll Interest.readable PollOpt.edge, 7⟩
      else Option.none⟩
    3 7 EPOLLIN 0 Interest.readable PollOpt.edge ⟨1, 7⟩
    { len := 1, events := [⟨1, 7⟩] }
    (by decide) (Or.inl rfl) rfl (by decide) rfl

/-- C10: the `io::read` and `io::write` helpers advance the buffer cursor
by exactly `cnt` on `Ready(cnt)` and leave it unchanged on would-block or
error. -/
theorem c10_buffer_cursor (buf : MioBuf) (osr osw : Except MioError Nat) :
    (∀ cnt, (ioread buf osr).1 = Except.ok (NonBlock.Ready cnt) →
      (ioread buf osr).2.pos = buf.pos + cnt) ∧
    ((ioread buf osr).1 = Except.ok NonBlock.WouldBlock →
      (ioread buf osr).2 = buf) ∧
    (∀ e, (ioread buf osr).1 = Except.error e → (ioread buf osr).2 = buf) ∧
    (∀ cnt, (iowrite buf osw).1 = Except.ok (NonBlock.Ready cnt) →
      (iowrite buf osw).2.pos = buf.pos + cnt) ∧
    ((iowrite buf osw).1 = Except.ok NonBlock.WouldBlock →
      (iowrite buf osw).2 = buf) ∧
    (∀ e, (iowrite buf osw).1 = Except.error e → (iowrite buf osw).2 = buf) := by
  have hread : ∀ (os : Except MioError Nat),
      (∀ cnt, (ioread buf os).1 = Except.ok (NonBlock.Ready cnt) →
        (ioread buf os).2.pos = buf.pos + cnt) ∧
      ((ioread buf os).1 = Except.ok NonBlock.WouldBlock →
        (ioread buf os).2 = buf) ∧
      (∀ e, (ioread buf os).1 = Except.error e → (ioread buf os).2 = buf) := by
    intro os
    rcases os with ⟨k⟩ | cnt0
    · rcases k with _ | code <;> simp [ioread, read_slice, MioBuf.advance]
    · refine ⟨fun cnt h => ?_, by simp [ioread, read_slice], fun e h => ?_⟩
      · simp [ioread, read_slice, MioBuf.advance] at h ⊢
        omega
      · simp [ioread, read_slice] at h
  have hwrite : ∀ (os : Except MioError Nat),
      (∀ cnt, (iowrite buf os).1 = Except.ok (NonBlock.Ready cnt) →
        (iowrite buf os).2.pos = buf.pos + cnt) ∧
      ((iowrite buf os).1 = Except.ok NonBlock.WouldBlock →
        (iowrite buf os).2 = buf) ∧
      (∀ e, (iowrite buf os).1 = Except.error e → (iowrite buf os).2 = buf) := by
    intro os
    rcases os with ⟨k⟩ | cnt0
    · rcases k with _ | code <;> simp [iowrite, write_slice, MioBuf.advance]
    · refine ⟨fun cnt h => ?_, by simp [iowrite, write_slice], fun e h => ?_⟩
      · simp [iowrite, write_slice, MioBuf.advance] at h ⊢
        omega
      · simp [iowrite, write_slice] at h
  exact ⟨(hread osr).1, (hread osr).2.1, (hread osr).2.2,
    (hwrite osw).1, (hwrite osw).2.1, (hwrite osw).2.2⟩

/-- C10 witness: concrete successful read and write of 3 and 4 bytes. -/
theorem c10_witness :
    (ioread ⟨0⟩ (Except.ok 3)).2.pos = 0 + 3 ∧
    (iowrite ⟨0⟩ (Except.ok 4)).2.pos = 0 + 4 :=
  ⟨(c10_buffer_cursor ⟨0⟩ (Except.ok 3) (Except.ok 4)).1 3 rfl,
   (c10_buffer_cursor ⟨0⟩ (Except.ok 3) (Except.ok 4)).2.2.2.1 4 rfl⟩

/-- C4: the IOCP `TcpStream::read` returns would-block and leaves the
state unchanged when no completed read is cached (`Empty` or `Pending`);
on `Ready` it returns the cached bytes and schedules the next overlapped
read exactly when the cached buffer is fully consumed; on `Error` it
returns the stored error and reschedules a read; and scheduling on an
empty state issues the next overlapped read (state becomes `Pending`). -/
theorem c4_iocp_read_state (me : StreamInner) (outLen : Nat)
    (osRead : Except WinErr Unit) (freshBuf : List Nat) :
    (me.read = RState.Empty →
      TcpStream.read me outLen osRead freshBuf =
        (Except.error WinErr.wouldBlock, me)) ∧
    (∀ buf, me.read = RState.Pending buf →
      TcpStream.read me outLen osRead freshBuf =
        (Except.error WinErr.wouldBlock, me)) ∧
    (∀ cursor, me.read = RState.Ready cursor →
      (TcpStream.read me outLen osRead freshBuf).1 =
        Except.ok (min outLen (cursor.data.length - cursor.pos)) ∧
      (cursor.pos + min outLen (cursor.data.length - cursor.pos) ≠
          cursor.data.length →
        (TcpStream.read me outLen osRead freshBuf).2 =
          { me with read := RState.Ready (RCursor.mk cursor.data
              (cursor.pos + min outLen (cursor.data.length - cursor.pos))) }) ∧
      (cursor.pos + min outLen (cursor.data.length - cursor.pos) =
          cursor.data.length →
        (TcpStream.read me outLen osRead freshBuf).2 =
          schedule_read { me with read := RState.Empty } osRead freshBuf)) ∧
    (∀ e, me.read = RState.Error e →
      TcpStream.read me outLen osRead freshBuf =
        (Except.error e,
          schedule_read { me with read := RState.Empty } osRead freshBuf)) ∧
    (osRead = Except.ok () →
      (schedule_read { me with read := RState.Empty } osRead freshBuf).read =
        RState.Pending freshBuf) := by
  obtain ⟨riness, dconn, rstate, wstate⟩ := me
  refine ⟨fun h => ?_, fun buf h => ?_, fun cursor h => ?_, fun e h => ?_,
    fun h => ?_⟩
  · simp only at h
    subst h
    simp [TcpStream.read]
  · simp only at h
    subst h
    simp [TcpStream.read]
  · simp only at h
    subst h
    refine ⟨?_, fun hne => ?_, fun heq => ?_⟩
    · by_cases hc : cursor.pos + min outLen (cursor.data.length - cursor.pos) =
        cursor.data.length <;>
        simp [TcpStream.read, hc]
    · simp [TcpStream.read, hne]
    · simp [TcpStream.read, heq]
  · simp only at h
    subst h
    simp [TcpStream.read]
  · subst h
    simp [schedule_read]

/-- C4 witness: a cached two-byte read consumed in full by a two-byte
caller buffer returns the bytes and leaves a `Pending` overlapped read. -/
theorem c4_witness :
    (TcpStream.read ⟨0, false, RState.Ready ⟨[5, 6], 0⟩, RState.Empty⟩ 2
        (Except.ok ()) [9]).1 = Except.ok (min 2 ([5, 6].length - 0)) ∧
    (TcpStream.read ⟨0, false, RState.Ready ⟨[5, 6], 0⟩, RState.Empty⟩ 2
        (Except.ok ()) [9]).2 =
      schedule_read ⟨0, false, RState.Empty, RState.Empty⟩ (Except.ok ()) [9] := by
  have h := (c4_iocp_read_state ⟨0, false, RState.Ready ⟨[5, 6], 0⟩, RState.Empty⟩
    2 (Except.ok ()) [9]).2.2.1 ⟨[5, 6], 0⟩ rfl
  exact ⟨h.1, h.2.2 (by decide)⟩

/-- C5: a completed overlapped read with zero bytes transferred adds
readable-plus-hup readiness; a nonzero completion adds readiness that
contains readable and does not contain hup. -/
theorem c5_zero_byte_read_is_hup (me : StreamInner) (buf freshBuf : List Nat)
    (n : Nat) (connectResult osRead : Except WinErr Unit)
    (hp : me.read = RState.Pending buf) :
    (read_done me n connectResult osRead freshBuf).readiness =
      (if n = 0 then EventSet.readable ||| EventSet.hup else EventSet.readable)
        ||| me.readiness ∧
    (read_done me n connectResult osRead freshBuf).read =
      RState.Ready ⟨buf.take n, 0⟩ ∧
    (n = 0 →
      bitsContain
        (if n = 0 then EventSet.readable ||| EventSet.hup else EventSet.readable)
        EventSet.readable = true ∧
      bitsContain
        (if n = 0 then EventSet.readable ||| EventSet.hup else EventSet.readable)
        EventSet.hup = true) ∧
    (n ≠ 0 →
      bitsContain
        (if n = 0 then EventSet.readable ||| EventSet.hup else EventSet.readable)
        EventSet.readable = true ∧
      bitsContain
        (if n = 0 then EventSet.readable ||| EventSet.hup else EventSet.readable)
        EventSet.hup = false) := by
  obtain ⟨riness, dconn, rstate, wstate⟩ := me
  simp only at hp
  subst hp
  by_cases hn : n = 0
  · subst hn
    refine ⟨by simp [read_done, add_readiness],
      by simp [read_done, add_readiness], ?_, ?_⟩
    · intro _
      exact ⟨by decide, by decide⟩
    · intro h
      exact absurd rfl h
  · refine ⟨by simp [read_done, add_readiness, hn],
      by simp [read_done, add_readiness], ?_, ?_⟩
    · intro h
      exact absurd h hn
    · intro _
      simp only [if_neg hn]
      exact ⟨by decide, by decide⟩

/-- C5 witness: zero-byte and one-byte completions at concrete inputs. -/
theorem c5_witness :
    (read_done ⟨0, false, RState.Pending [7], RState.Empty⟩ 0 (Except.ok ())
        (Except.ok ()) []).readiness =
      (EventSet.readable ||| EventSet.hup) ||| 0 ∧
    (read_done ⟨0, false, RState.Pending [7], RState.Empty⟩ 1 (Except.ok ())
        (Except.ok ()) []).readiness = EventSet.readable ||| 0 := by
  have h0 := c5_zero_byte_read_is_hup ⟨0, false, RState.Pending [7], RState.Empty⟩
    [7] [] 0 (Except.ok ()) (Except.ok ()) rfl
  have h1 := c5_zero_byte_read_is_hup ⟨0, false, RState.Pending [7], RState.Empty⟩
    [7] [] 1 (Except.ok ()) (Except.ok ()) rfl
  exact ⟨h0.1, h1.1⟩

/-- C6: initiating a TCP connect that the OS reports as in progress
(`EINPROGRESS`) returns success rather than an error — both in
`sys::unix::net::connect` and in `Socket::connect` — and on the IOCP
backend the completion of a deferred connect adds writable readiness to
the registration. -/
theorem c6_nonblocking_connect (me : StreamInner) (n : Nat)
    (osRead : Except WinErr Unit) (freshBuf : List Nat)
    (hs : me.read = RState.Empty) :
    unixConnect (Except.error (NixError.sys EINPROGRESS)) = Except.ok false ∧
    (Socket.connect (Except.error EINPROGRESS)).1 = Except.ok 0 ∧
    bitsContain (read_done me n (Except.ok ()) osRead freshBuf).readiness
      EventSet.writable = true := by
  obtain ⟨riness, dconn, rstate, wstate⟩ := me
  simp only at hs
  subst hs
  refine ⟨rfl, rfl, ?_⟩
  have hwpow : EventSet.writable = 2 ^ 1 := by decide
  rw [hwpow, bitsContain_two_pow]
  have h2 : Nat.testBit 2 1 = true := by decide
  have h1 : Nat.testBit 1 1 = false := by decide
  have h8 : Nat.testBit 8 1 = false := by decide
  have h9 : Nat.testBit 9 1 = false := by decide
  have h14 : Nat.testBit 14 1 = true := by decide
  have h15 : Nat.testBit 15 1 = true := by decide
  have h3 : Nat.testBit 3 1 = true := by decide
  have h4 : Nat.testBit 4 1 = false := by decide
  rcases osRead with e | u
  · by_cases hc : WinErr.rawOsError e = Option.some WSAECONNRESET <;>
      simp [read_done, schedule_read, add_readiness, hc, EventSet.readable,
        EventSet.writable, EventSet.hup, EventSet.error, EventSet.all,
        Nat.testBit_lor, Nat.testBit_land, h1, h2, h3, h4, h8, h9, h14, h15]
  · simp [read_done, schedule_read, add_readiness, EventSet.readable,
      EventSet.writable, EventSet.hup, EventSet.error, EventSet.all,
      Nat.testBit_lor, Nat.testBit_land, h1, h2, h3, h4, h8, h9, h14, h15]

/-- C6 witness: concrete in-progress connect results and a concrete
deferred-connect completion. -/
theorem c6_witness :
    unixConnect (Except.error (NixError.sys EINPROGRESS)) = Except.ok false ∧
    (Socket.connect (Except.error EINPROGRESS)).1 = Except.ok 0 ∧
    bitsContain
      (read_done ⟨0, true, RState.Empty, RState.Empty⟩ 0 (Except.ok ())
        (Except.ok ()) []).readiness EventSet.writable = true :=
  c6_nonblocking_connect ⟨0, true, RState.Empty, RState.Empty⟩ 0
    (Except.ok ()) [] rfl

end Mio
